import Mathlib

/-!
# Shallow embedding of the exercise-tracker service (src/index.js)

The source is a small Express + Mongoose application with three record
operations: create-or-get a user (`POST /api/users`), append an exercise
(`POST /api/users/:_id/exercises`) and query a user's exercise log
(`GET /api/users/:_id/logs`).

Modelling choices, kept explicit:
* JavaScript `Date` values are `Option Int` — `some t` is a timestamp in
  milliseconds since the Unix epoch (UTC), `none` is `Invalid Date`.
* JavaScript request-body values are a small value type `JSVal`
  (undefined / string / integer number) with JS truthiness; the model
  restricts JS numbers to integers, which covers every input the
  specification and claims mention.
* The MongoDB/Mongoose persistence layer is modelled as explicit lists:
  `find` is a list filter, `findOne`/`findById` is `List.find?`,
  Mongoose `required`-field validation rejects a save whose `date` casts
  to `Invalid Date` or whose `duration` is `NaN`, and `cursor.limit` has
  MongoDB's documented semantics (`limit(0)` imposes no limit, a negative
  limit caps at its absolute value).
* The ECMAScript general date parser (`new Date(string)`) is left
  abstract where the source uses it on arbitrary query strings: `getLogs`
  takes it as a function parameter `parse : String → Option Int`.  On
  strings matching `YYYY-MM-DD` the ECMAScript parser is the ISO
  date-only parse (UTC midnight; out-of-range components give
  `Invalid Date`), which `parseYYYYMMDD` below implements concretely.
* `new Date()` (the current time) is passed in as an explicit `now`
  parameter.
-/

namespace ExerciseTracker

/-! ## Calendar arithmetic (proleptic Gregorian, epoch = 1970-01-01) -/

/-- Days from civil date (y, m, d) to days since the Unix epoch
(Howard Hinnant's `days_from_civil`, with floor division). -/
def daysFromCivil (y m d : Int) : Int :=
  let y' := if m ≤ 2 then y - 1 else y
  let era := y'.fdiv 400
  let yoe := y' - era * 400
  let mp  := if m > 2 then m - 3 else m + 9
  let doy := (153 * mp + 2).fdiv 5 + d - 1
  let doe := yoe * 365 + yoe.fdiv 4 - yoe.fdiv 100 + doy
  era * 146097 + doe - 719468

/-- Civil date (y, m, d) from days since the Unix epoch
(Howard Hinnant's `civil_from_days`, with floor division). -/
def civilFromDays (z : Int) : Int × Int × Int :=
  let z'  := z + 719468
  let era := z'.fdiv 146097
  let doe := z' - era * 146097
  let yoe := (doe - doe.fdiv 1460 + doe.fdiv 36524 - doe.fdiv 146096).fdiv 365
  let y   := yoe + era * 400
  let doy := doe - (365 * yoe + yoe.fdiv 4 - yoe.fdiv 100)
  let mp  := (5 * doy + 2).fdiv 153
  let d   := doy - (153 * mp + 2).fdiv 5 + 1
  let m   := if mp < 10 then mp + 3 else mp - 9
  (if m ≤ 2 then y + 1 else y, m, d)

def isLeapYear (y : Int) : Bool :=
  (y % 4 = 0 && y % 100 ≠ 0) || y % 400 = 0

def daysInMonth (y m : Int) : Int :=
  if m = 2 then (if isLeapYear y then 29 else 28)
  else if m = 4 || m = 6 || m = 9 || m = 11 then 30
  else 31

def msPerDay : Int := 86400000

def weekdayName (w : Int) : String :=
  if w = 0 then "Sun" else if w = 1 then "Mon" else if w = 2 then "Tue"
  else if w = 3 then "Wed" else if w = 4 then "Thu" else if w = 5 then "Fri"
  else "Sat"

def monthName (m : Int) : String :=
  if m = 1 then "Jan" else if m = 2 then "Feb" else if m = 3 then "Mar"
  else if m = 4 then "Apr" else if m = 5 then "May" else if m = 6 then "Jun"
  else if m = 7 then "Jul" else if m = 8 then "Aug" else if m = 9 then "Sep"
  else if m = 10 then "Oct" else if m = 11 then "Nov" else "Dec"

def pad2 (n : Int) : String :=
  if 0 ≤ n && n < 10 then "0" ++ toString n else toString n

/-- ECMAScript `Date.prototype.toDateString` on a valid timestamp,
rendered in UTC (the model's local time zone): weekday, month, 2-digit
day, year — e.g. `"Mon Jan 01 2024"`. -/
def toDateString (t : Int) : String :=
  let days := t.fdiv msPerDay
  let ymd := civilFromDays days
  let wd := (days + 4).fmod 7
  weekdayName wd ++ " " ++ monthName ymd.2.1 ++ " " ++ pad2 ymd.2.2 ++ " "
    ++ toString ymd.1

/-- `src/index.js` line 38: `toDateStringSafe(date)` = `new
Date(date).toDateString()`.  On `Invalid Date` JavaScript renders the
string `"Invalid Date"`. -/
def toDateStringSafe (date : Option Int) : String :=
  match date with
  | some t => toDateString t
  | none => "Invalid Date"

/-! ## JavaScript values, truthiness and coercions -/

/-- JavaScript request-body value: absent field, string, or (integer)
number. -/
inductive JSVal where
  | undef
  | str (s : String)
  | num (n : Int)
deriving DecidableEq, Repr

/-- JS truthiness of a `JSVal` (`undefined`, `""` and `0` are falsy). -/
def JSVal.truthy : JSVal → Bool
  | .undef => false
  | .str s => s ≠ ""
  | .num n => n ≠ 0

/-- Mongoose `String`-field cast of a JS value. -/
def JSVal.toStr : JSVal → String
  | .undef => "undefined"
  | .str s => s
  | .num n => toString n

/-- `Number(string)` for integer-literal strings: `""` coerces to `0`,
an optionally signed digit string to its value, anything else to `NaN`
(`none`).  (Fractional/exponent/hex forms are outside the model; no
claim exercises them.) -/
def jsStringToNumber (s : String) : Option Int :=
  if s = "" then some 0
  else
    let core := fun (cs : List Char) =>
      if cs ≠ [] && cs.all Char.isDigit then
        some (cs.foldl (fun a c => a * 10 + (c.toNat - 48)) 0 : Int)
      else none
    match s.data with
    | '-' :: rest => (core rest).map (fun n => -n)
    | '+' :: rest => core rest
    | cs => core cs

/-- `Number(v)` on a `JSVal`; `none` is `NaN`. -/
def JSVal.toNumber : JSVal → Option Int
  | .undef => none
  | .str s => jsStringToNumber s
  | .num n => some n

/-- Truthiness of an optional query/body string (`undefined` and `""`
are falsy). -/
def qTruthy : Option String → Bool
  | some s => s ≠ ""
  | none => false

/-! ## Date validation and parsing -/

/-- `src/index.js` line 42: `isValidDateStringYYYYMMDD(str)` =
`/^\d{4}-\d{2}-\d{2}$/.test(str)`. -/
def isValidDateStringYYYYMMDD (s : String) : Bool :=
  match s.data with
  | [y1, y2, y3, y4, h1, m1, m2, h2, d1, d2] =>
      y1.isDigit && y2.isDigit && y3.isDigit && y4.isDigit
        && h1 = '-' && m1.isDigit && m2.isDigit && h2 = '-'
        && d1.isDigit && d2.isDigit
  | _ => false

def digitsToInt (cs : List Char) : Int :=
  (cs.foldl (fun a c => a * 10 + (c.toNat - 48)) 0 : Int)

/-- ECMAScript `new Date(s)` for a string `s` matching the
`YYYY-MM-DD` pattern: the ISO date-only parse.  Out-of-range month or
day components yield `Invalid Date` (`none`); otherwise the result is
UTC midnight of that calendar date.  Strings not matching the pattern
give `none` (the general parser may accept them, but the source only
applies this parse under the `isValidDateStringYYYYMMDD` guard). -/
def parseYYYYMMDD (s : String) : Option Int :=
  match s.data with
  | [y1, y2, y3, y4, h1, m1, m2, h2, d1, d2] =>
      if y1.isDigit && y2.isDigit && y3.isDigit && y4.isDigit
          && h1 = '-' && m1.isDigit && m2.isDigit && h2 = '-'
          && d1.isDigit && d2.isDigit then
        let y := digitsToInt [y1, y2, y3, y4]
        let m := digitsToInt [m1, m2]
        let d := digitsToInt [d1, d2]
        if 1 ≤ m && m ≤ 12 && 1 ≤ d && d ≤ daysInMonth y m then
          some (msPerDay * daysFromCivil y m d)
        else none
      else none
  | _ => none

/-! ## Data model and store -/

/-- A stored User record (`userSchema`, src/index.js line 22):
`username` is required and unique; `id` models the Mongo `_id`. -/
structure UserR where
  id : Nat
  username : String
deriving DecidableEq, Repr

/-- A stored Exercise record (`exerciseSchema`, src/index.js line 28).
`duration` and `date` are `Option` because the JavaScript values fed to
the schema may be `NaN` / `Invalid Date`; Mongoose's required-field cast
(modelled in `appendExercise`) rejects those at save time. -/
structure ExerciseR where
  id : Nat
  userId : Nat
  description : String
  duration : Option Int
  date : Option Int
deriving DecidableEq, Repr

/-- The document store: the Users and Exercises collections, in
insertion order, plus a fresh-id counter standing in for ObjectId
generation. -/
structure Store where
  users : List UserR
  exercises : List ExerciseR
  nextId : Nat
deriving DecidableEq, Repr

/-- HTTP outcome of a handler, by status code. -/
inductive ApiResult (α : Type) where
  | ok (body : α)
  | badRequest (error : String)
  | notFound (error : String)
  | serverError (error : String)
deriving DecidableEq, Repr

/-- Response body of `POST /api/users` (src/index.js line 66):
`{username, _id}`. -/
structure UserView where
  username : String
  _id : Nat
deriving DecidableEq, Repr

/-- Response body of `POST /api/users/:_id/exercises`
(src/index.js lines 113-119). -/
structure ExerciseView where
  _id : Nat
  username : String
  description : String
  duration : Option Int
  date : String
deriving DecidableEq, Repr

/-- One element of the `log` array of `GET /api/users/:_id/logs`
(src/index.js lines 152-156). -/
structure LogEntry where
  description : String
  duration : Option Int
  date : String
deriving DecidableEq, Repr

/-- Response body of `GET /api/users/:_id/logs`
(src/index.js lines 148-157). -/
structure LogView where
  username : String
  count : Nat
  _id : Nat
  log : List LogEntry
deriving DecidableEq, Repr

/-! ## Handlers -/

/-- `POST /api/users` (src/index.js lines 54-77).

`st` is the store when `User.findOne` runs; `stAtSave` is the store when
`user.save()` runs — a concurrent identical insert may have landed in
between, in which case the unique index on `username` makes the save
fail with error code 11000 and the catch branch re-fetches by username
(lines 68-76).  A sequential call has `stAtSave = st`. -/
def createOrGetUser (st stAtSave : Store) (username? : Option String) :
    ApiResult UserView × Store :=
  if qTruthy username? = false then
    (.badRequest "username is required", st)
  else
    match username? with
    | none => (.badRequest "username is required", st)
    | some username =>
      match st.users.find? (fun u => u.username = username) with
      | some u => (.ok ⟨u.username, u.id⟩, st)
      | none =>
        match stAtSave.users.find? (fun u => u.username = username) with
        | some existing =>
            -- save hits the unique index (err.code 11000): re-fetch
            (.ok ⟨existing.username, existing.id⟩, stAtSave)
        | none =>
            let u : UserR := ⟨stAtSave.nextId, username⟩
            (.ok ⟨u.username, u.id⟩,
             { stAtSave with users := stAtSave.users ++ [u],
                             nextId := stAtSave.nextId + 1 })

/-- `GET /api/users` (src/index.js lines 80-88). -/
def listUsers (st : Store) : ApiResult (List UserView) × Store :=
  (.ok (st.users.map (fun u => ⟨u.username, u.id⟩)), st)

/-- `POST /api/users/:_id/exercises` (src/index.js lines 91-125).
`now` is the timestamp `new Date()` would produce at the call.
Mongoose's required-field validation makes `exercise.save()` throw when
`duration` is `NaN` or `date` is `Invalid Date`; the catch maps that to
a 500 and nothing is stored. -/
def appendExercise (st : Store) (uid : Nat) (description duration : JSVal)
    (date? : Option String) (now : Int) : ApiResult ExerciseView × Store :=
  if description.truthy = false || duration.truthy = false then
    (.badRequest "description and duration are required", st)
  else
    match st.users.find? (fun u => u.id = uid) with
    | none => (.notFound "user not found", st)
    | some user =>
      let exerciseDate : Option Int :=
        match date? with
        | some s =>
            if s ≠ "" && isValidDateStringYYYYMMDD s then parseYYYYMMDD s
            else some now
        | none => some now
      match duration.toNumber, exerciseDate with
      | some dur, some t =>
          let ex : ExerciseR :=
            ⟨st.nextId, user.id, description.toStr, some dur, some t⟩
          (.ok ⟨user.id, user.username, ex.description, ex.duration,
                toDateStringSafe ex.date⟩,
           { st with exercises := st.exercises ++ [ex],
                     nextId := st.nextId + 1 })
      | _, _ => (.serverError "Server error", st)

/-- The `dateFilter.date` object of the logs handler: optional `$gte`
and `$lte` bounds, each a JS `Date` (possibly invalid). -/
structure DateRange where
  gte : Option (Option Int)
  lte : Option (Option Int)
deriving DecidableEq, Repr

/-- One bound of the range if the query string is truthy
(src/index.js lines 139-140). -/
def qBound (parse : String → Option Int) : Option String → Option (Option Int)
  | some s => if s = "" then none else some (parse s)
  | none => none

/-- Modelled from the spec: the Persistence Gateway's evaluation of one
comparison bound.  A bound that parsed to a valid date compares
inclusively; per §4.3/§9 an unparseable (`Invalid Date`) bound "yields
an unbounded (always-true) comparison". -/
def boundGte (b : Option (Option Int)) (t : Int) : Bool :=
  match b with
  | none => true
  | some none => true
  | some (some f) => f ≤ t

/-- See `boundGte`. -/
def boundLte (b : Option (Option Int)) (t : Int) : Bool :=
  match b with
  | none => true
  | some none => true
  | some (some f) => t ≤ f

/-- Whether a stored `date` field satisfies the (optional) range filter.
A record whose `date` did not cast to a valid date cannot exist in a
store reachable through `appendExercise`; such a record matches only the
absent filter. -/
def rangeOk (r : Option DateRange) (date : Option Int) : Bool :=
  match r with
  | none => true
  | some rg =>
      match date with
      | none => false
      | some t => boundGte rg.gte t && boundLte rg.lte t

/-- Modelled from MongoDB's documented `cursor.limit(n)` semantics (the
Persistence Gateway contract, spec §6): `limit(0)` is equivalent to no
limit, a negative limit caps the result at its absolute value. -/
def mongoLimit (n : Int) (l : List ExerciseR) : List ExerciseR :=
  if n = 0 then l else l.take n.natAbs

/-- `GET /api/users/:_id/logs` (src/index.js lines 128-163).
`parse` is the ECMAScript general date parser `new Date(string)`,
abstract because `from`/`to` are arbitrary query strings. -/
def getLogs (parse : String → Option Int) (st : Store) (uid : Nat)
    (fromS toS limitS : Option String) : ApiResult LogView × Store :=
  match st.users.find? (fun u => u.id = uid) with
  | none => (.notFound "user not found", st)
  | some user =>
    let dateFilter : Option DateRange :=
      if qTruthy fromS || qTruthy toS then
        some ⟨qBound parse fromS, qBound parse toS⟩
      else none
    let matched := st.exercises.filter
      (fun e => e.userId = user.id && rangeOk dateFilter e.date)
    let limited : Option (List ExerciseR) :=
      match limitS with
      | some s =>
          if s = "" then some matched
          else
            match jsStringToNumber s with
            | some n => some (mongoLimit n matched)
            | none => none   -- Number(limit) is NaN: the cast throws
      | none => some matched
    match limited with
    | none => (.serverError "Server error", st)
    | some exs =>
        (.ok ⟨user.username, exs.length, user.id,
              exs.map (fun e => ⟨e.description, e.duration,
                                 toDateStringSafe e.date⟩)⟩, st)

/-! ## Shared sample data and helper lemmas -/

/-- A store holding a single user `alice` and no exercises. -/
def aliceStore : Store := ⟨[⟨0, "alice"⟩], [], 1⟩

/-- A store holding user `alice` with one exercise dated at the epoch. -/
def runStore : Store := ⟨[⟨0, "alice"⟩], [⟨1, 0, "run", some 30, some 0⟩], 2⟩

theorem find?_append_of_none {α : Type} {p : α → Bool} {l : List α}
    (h : l.find? p = none) (l₂ : List α) :
    (l ++ l₂).find? p = l₂.find? p := by
  simp [List.find?_append, h]

/-! ## Claim theorems -/

/-- C9: an appendExercise call in which `description` or `duration` is
present but falsy (empty-string description, duration `0` or `""`) is
rejected with the 400 MISSING_FIELD error exactly as if the field were
absent, and the store is unchanged (no Exercise is created). -/
theorem appendExercise_falsy_field_rejected (st : Store) (uid : Nat)
    (description duration : JSVal) (date? : Option String) (now : Int)
    (h : description.truthy = false ∨ duration.truthy = false) :
    appendExercise st uid description duration date? now =
      (.badRequest "description and duration are required", st) := by
  unfold appendExercise
  rcases h with h | h <;> simp [h]

/-- Witness for C9: duration `0` (a present but falsy value) is rejected
with 400 and the store is untouched. -/
theorem appendExercise_falsy_field_rejected_witness :
    (JSVal.num 0).truthy = false ∧
      appendExercise aliceStore 0 (JSVal.str "run") (JSVal.num 0) none 0 =
        (.badRequest "description and duration are required", aliceStore) :=
  ⟨by decide,
   appendExercise_falsy_field_rejected aliceStore 0 (JSVal.str "run")
     (JSVal.num 0) none 0 (Or.inr (by decide))⟩

/-- Counterexample to C2 as stated: a call whose user id refers to no
user but whose `description`/`duration` are also missing is answered
with the 400 MISSING_FIELD error, not the 404 NOT_FOUND error — the
handler validates the fields before it looks the user up. -/
theorem appendExercise_unknown_user_cex :
    (∀ u ∈ (Store.mk [] [] 0).users, ¬u.id = 0) ∧
      (appendExercise ⟨[], [], 0⟩ 0 .undef .undef none 0).1 =
        .badRequest "description and duration are required" ∧
      ¬(appendExercise ⟨[], [], 0⟩ 0 .undef .undef none 0).1 =
        .notFound "user not found" := by
  decide

/-- C2 (amended): an appendExercise call whose `description` and
`duration` pass validation but whose user id refers to no existing User
yields the 404 NOT_FOUND error, and the store is unchanged — no
Exercise record is created. -/
theorem appendExercise_unknown_user_not_found (st : Store) (uid : Nat)
    (description duration : JSVal) (date? : Option String) (now : Int)
    (hd : description.truthy = true) (hu : duration.truthy = true)
    (habs : st.users.find? (fun u => u.id = uid) = none) :
    appendExercise st uid description duration date? now =
      (.notFound "user not found", st) := by
  unfold appendExercise
  simp [hd, hu, habs]

/-- Witness for C2 (amended): valid fields, unknown user id 7. -/
theorem appendExercise_unknown_user_not_found_witness :
    (JSVal.str "run").truthy = true ∧ (JSVal.num 30).truthy = true ∧
      (aliceStore.users.find? (fun u => u.id = 7) = none) ∧
      appendExercise aliceStore 7 (JSVal.str "run") (JSVal.num 30)
          (some "2023-05-01") 0 =
        (.notFound "user not found", aliceStore) :=
  ⟨by decide, by decide, by decide,
   appendExercise_unknown_user_not_found aliceStore 7 (JSVal.str "run")
     (JSVal.num 30) (some "2023-05-01") 0 (by decide) (by decide) (by decide)⟩

/-- C6: when the user insert of createOrGetUser fails because the
storage layer reports a username-uniqueness violation (a record with
that username exists in the store at save time although none did at
lookup time), the handler re-fetches by username and returns the
existing record with a success (200) response — the uniqueness error is
never surfaced to the caller. -/
theorem createOrGetUser_unique_violation_recovered (st stAtSave : Store)
    (username : String) (u : UserR) (hne : ¬username = "")
    (h1 : st.users.find? (fun v => v.username = username) = none)
    (h2 : stAtSave.users.find? (fun v => v.username = username) = some u) :
    createOrGetUser st stAtSave (some username) =
      (.ok ⟨u.username, u.id⟩, stAtSave) := by
  unfold createOrGetUser
  simp [qTruthy, hne, h1, h2]

/-- Witness for C6: `alice` was absent at lookup time but a concurrent
insert created her before the save; the call returns the concurrent
record with a 200. -/
theorem createOrGetUser_unique_violation_recovered_witness :
    ((⟨[], [], 0⟩ : Store).users.find? (fun v => v.username = "alice")
        = none) ∧
      (aliceStore.users.find? (fun v => v.username = "alice")
        = some ⟨0, "alice"⟩) ∧
      createOrGetUser ⟨[], [], 0⟩ aliceStore (some "alice") =
        (.ok ⟨"alice", 0⟩, aliceStore) :=
  ⟨by decide, by decide,
   createOrGetUser_unique_violation_recovered ⟨[], [], 0⟩ aliceStore "alice"
     ⟨0, "alice"⟩ (by decide) (by decide) (by decide)⟩

/-- C3: createOrGetUser is idempotent — the first call with a valid,
never-seen username creates and returns a User whose username equals the
input, and a repeated call with the same username returns the very same
stored record (same id) and leaves the store unchanged. -/
theorem createOrGetUser_idempotent (st : Store) (username : String)
    (hne : ¬username = "")
    (habs : ∀ u ∈ st.users, ¬u.username = username) :
    ∃ st' : Store,
      createOrGetUser st st (some username) =
        (.ok ⟨username, st.nextId⟩, st') ∧
      (⟨st.nextId, username⟩ : UserR) ∈ st'.users ∧
      createOrGetUser st' st' (some username) =
        (.ok ⟨username, st.nextId⟩, st') := by
  have hfind : st.users.find? (fun u => u.username = username) = none := by
    apply List.find?_eq_none.mpr
    intro u hu
    simp [habs u hu]
  refine ⟨⟨st.users ++ [⟨st.nextId, username⟩], st.exercises, st.nextId + 1⟩,
    ?_, ?_, ?_⟩
  · unfold createOrGetUser
    simp [qTruthy, hne, hfind]
  · simp
  · have hfind₂ :
        (st.users ++ [(⟨st.nextId, username⟩ : UserR)]).find?
            (fun u => u.username = username)
          = some ⟨st.nextId, username⟩ := by
      rw [find?_append_of_none hfind]
      simp
    unfold createOrGetUser
    simp [qTruthy, hne, hfind₂]

/-- Witness for C3: creating `bob` in `aliceStore` and calling again. -/
theorem createOrGetUser_idempotent_witness :
    (¬"bob" = "") ∧ (∀ u ∈ aliceStore.users, ¬u.username = "bob") ∧
      ∃ st' : Store,
        createOrGetUser aliceStore aliceStore (some "bob") =
          (.ok ⟨"bob", aliceStore.nextId⟩, st') ∧
        (⟨aliceStore.nextId, "bob"⟩ : UserR) ∈ st'.users ∧
        createOrGetUser st' st' (some "bob") =
          (.ok ⟨"bob", aliceStore.nextId⟩, st') :=
  ⟨by decide, by decide,
   createOrGetUser_idempotent aliceStore "bob" (by decide) (by decide)⟩

/-- C8: the valid-date invariant — if every Exercise in storage has a
valid calendar date, then after any appendExercise call (including calls
supplying no date or an invalidly formatted one) every Exercise in
storage still has a valid calendar date; no call can store an invalid
date. -/
theorem appendExercise_stored_dates_valid (st : Store) (uid : Nat)
    (description duration : JSVal) (date? : Option String) (now : Int)
    (hinv : ∀ e ∈ st.exercises, e.date.isSome = true) :
    ∀ e ∈ (appendExercise st uid description duration date? now).2.exercises,
      e.date.isSome = true := by
  intro e he
  simp only [appendExercise] at he
  split at he
  · exact hinv e he
  · split at he
    · exact hinv e he
    · split at he
      · rw [List.mem_append] at he
        rcases he with he | he
        · exact hinv e he
        · simp only [List.mem_singleton] at he
          subst he
          rfl
      · exact hinv e he

/-- Witness for C8: a call with the calendar-invalid date `2024-02-30`
(pattern-valid, so it is parsed, and the parse is `Invalid Date`) leaves
the store's all-dates-valid invariant intact. -/
theorem appendExercise_stored_dates_valid_witness :
    (∀ e ∈ runStore.exercises, e.date.isSome = true) ∧
      (∀ e ∈ (appendExercise runStore 0 (JSVal.str "run") (JSVal.num 30)
          (some "2024-02-30") 5).2.exercises, e.date.isSome = true) :=
  ⟨by decide,
   appendExercise_stored_dates_valid runStore 0 (JSVal.str "run")
     (JSVal.num 30) (some "2024-02-30") 5 (by decide)⟩

/-- C10: a getLogs call whose `limit` is supplied and evaluates to the
number 0 applies no truncation — the response is identical to the same
call without a `limit`, so the log contains every exercise matching the
filter rather than zero entries. -/
theorem getLogs_limit_zero_no_truncation (parse : String → Option Int)
    (st : Store) (uid : Nat) (fromS toS : Option String) (s : String)
    (hs : ¬s = "") (h0 : jsStringToNumber s = some 0) :
    getLogs parse st uid fromS toS (some s) =
      getLogs parse st uid fromS toS none := by
  unfold getLogs
  cases hfind : st.users.find? (fun u => u.id = uid) with
  | none => simp
  | some user => simp [hs, h0, mongoLimit]

/-- Witness for C10: `limit=0` on a store with one matching exercise
returns that exercise, exactly as the unlimited call does. -/
theorem getLogs_limit_zero_no_truncation_witness :
    (¬"0" = "") ∧ jsStringToNumber "0" = some 0 ∧
      getLogs parseYYYYMMDD runStore 0 none none (some "0") =
        getLogs parseYYYYMMDD runStore 0 none none none :=
  ⟨by decide, by decide,
   getLogs_limit_zero_no_truncation parseYYYYMMDD runStore 0 none none "0"
     (by decide) (by decide)⟩

theorem isValid_iff_pattern (s : String) :
    isValidDateStringYYYYMMDD s = true ↔
      ∃ y1 y2 y3 y4 m1 m2 d1 d2 : Char,
        s.data = [y1, y2, y3, y4, '-', m1, m2, '-', d1, d2] ∧
          (y1.isDigit && y2.isDigit && y3.isDigit && y4.isDigit
            && m1.isDigit && m2.isDigit && d1.isDigit && d2.isDigit) = true := by
  unfold isValidDateStringYYYYMMDD
  constructor
  · intro h
    split at h
    next y1 y2 y3 y4 h1 m1 m2 h2 d1 d2 heq =>
      simp only [Bool.and_eq_true, decide_eq_true_eq] at h
      obtain ⟨⟨⟨⟨⟨⟨⟨⟨⟨hy1, hy2⟩, hy3⟩, hy4⟩, hh1⟩, hm1⟩, hm2⟩, hh2⟩, hd1⟩, hd2⟩ := h
      refine ⟨y1, y2, y3, y4, m1, m2, d1, d2, ?_, ?_⟩
      · rw [heq, hh1, hh2]
      · simp [hy1, hy2, hy3, hy4, hm1, hm2, hd1, hd2]
    next => exact absurd h (by simp)
  · rintro ⟨y1, y2, y3, y4, m1, m2, d1, d2, heq, hdig⟩
    rw [heq]
    simp only [Bool.and_eq_true] at hdig ⊢
    obtain ⟨⟨⟨⟨⟨⟨⟨hy1, hy2⟩, hy3⟩, hy4⟩, hm1⟩, hm2⟩, hd1⟩, hd2⟩ := hdig
    simp [hy1, hy2, hy3, hy4, hm1, hm2, hd1, hd2]

/-- C4: date normalization on append.  `isValidDateStringYYYYMMDD`
recognizes exactly the `YYYY-MM-DD` pattern (four digit year, two digit
month, two digit day, literal hyphens); a validated appendExercise call
for an existing user stores the current date `now` whenever the raw date
is absent or fails that pattern, stores the parse of the raw date
whenever it matches the pattern and parses to a valid date, and when a
pattern-matching raw date parses to `Invalid Date` the save fails and
nothing is stored. -/
theorem appendExercise_date_normalization (st : Store) (uid : Nat)
    (description duration : JSVal) (now : Int) (dv : Int)
    (hd : description.truthy = true) (hu : duration.truthy = true)
    (hdur : duration.toNumber = some dv) (user : UserR)
    (hfind : st.users.find? (fun u => u.id = uid) = some user) :
    (∀ s : String, isValidDateStringYYYYMMDD s = true ↔
        ∃ y1 y2 y3 y4 m1 m2 d1 d2 : Char,
          s.data = [y1, y2, y3, y4, '-', m1, m2, '-', d1, d2] ∧
            (y1.isDigit && y2.isDigit && y3.isDigit && y4.isDigit
              && m1.isDigit && m2.isDigit && d1.isDigit && d2.isDigit) = true)
    ∧ (∀ date? : Option String,
        (date? = none ∨ ∃ s, date? = some s ∧
            (s = "" ∨ isValidDateStringYYYYMMDD s = false)) →
        (appendExercise st uid description duration date? now).2.exercises =
          st.exercises
            ++ [⟨st.nextId, user.id, description.toStr, some dv, some now⟩])
    ∧ (∀ s t, ¬s = "" → isValidDateStringYYYYMMDD s = true →
        parseYYYYMMDD s = some t →
        (appendExercise st uid description duration (some s) now).2.exercises =
          st.exercises
            ++ [⟨st.nextId, user.id, description.toStr, some dv, some t⟩])
    ∧ (∀ s, ¬s = "" → isValidDateStringYYYYMMDD s = true →
        parseYYYYMMDD s = none →
        appendExercise st uid description duration (some s) now =
          (.serverError "Server error", st)) := by
  refine ⟨isValid_iff_pattern, ?_, ?_, ?_⟩
  · rintro date? (rfl | ⟨s, rfl, hs | hs⟩)
    · simp [appendExercise, hd, hu, hfind, hdur]
    · simp [appendExercise, hd, hu, hfind, hdur, hs]
    · simp [appendExercise, hd, hu, hfind, hdur, hs]
  · intro s t hs hvalid hparse
    simp [appendExercise, hd, hu, hfind, hdur, hs, hvalid, hparse]
  · intro s hs hvalid hparse
    simp [appendExercise, hd, hu, hfind, hdur, hs, hvalid, hparse]

/-- Witness for C4: with user `alice`, description `run`, duration 30
and `now = 99`: the non-matching raw date `"hello"` stores date 99 (the
current date), while the matching raw date `"2023-05-01"` stores its
parse (1682899200000 ms = 2023-05-01T00:00Z), and the pattern-matching
but calendar-invalid `"2024-02-30"` stores nothing and yields a 500. -/
theorem appendExercise_date_normalization_witness :
    (appendExercise aliceStore 0 (JSVal.str "run") (JSVal.num 30)
        (some "hello") 99).2.exercises =
      aliceStore.exercises ++ [⟨1, 0, "run", some 30, some 99⟩] ∧
    (appendExercise aliceStore 0 (JSVal.str "run") (JSVal.num 30)
        (some "2023-05-01") 99).2.exercises =
      aliceStore.exercises ++ [⟨1, 0, "run", some 30, some 1682899200000⟩] ∧
    appendExercise aliceStore 0 (JSVal.str "run") (JSVal.num 30)
        (some "2024-02-30") 99 =
      (.serverError "Server error", aliceStore) :=
  have h := appendExercise_date_normalization aliceStore 0 (JSVal.str "run")
    (JSVal.num 30) 99 30 (by decide) (by decide) (by decide) ⟨0, "alice"⟩
    (by decide)
  ⟨h.2.1 (some "hello") (Or.inr ⟨"hello", rfl, Or.inr (by decide)⟩),
   h.2.2.1 "2023-05-01" 1682899200000 (by decide) (by decide) (by decide),
   h.2.2.2 "2024-02-30" (by decide) (by decide) (by decide)⟩

/-- Claim-side lower-bound test, written as the claim states it: if
`from` is present the date must be ≥ parse(from); an absent `from`
imposes no restriction; an unparseable `from` yields an always-true
comparison. -/
def specFromOk (parse : String → Option Int) (fromS : Option String)
    (t : Int) : Bool :=
  match fromS with
  | none => true
  | some s =>
      match parse s with
      | none => true
      | some f => f ≤ t

/-- Claim-side upper-bound test; see `specFromOk`. -/
def specToOk (parse : String → Option Int) (toS : Option String)
    (t : Int) : Bool :=
  match toS with
  | none => true
  | some s =>
      match parse s with
      | none => true
      | some f => t ≤ f

theorem boundGte_qBound (parse : String → Option Int) (hp : parse "" = none)
    (o : Option String) (t : Int) :
    boundGte (qBound parse o) t = specFromOk parse o t := by
  match o with
  | none => rfl
  | some s =>
    by_cases hs : s = ""
    · subst hs
      simp [qBound, specFromOk, hp, boundGte]
    · simp only [qBound, hs, if_neg, ite_false]
      cases hps : parse s <;> simp [boundGte, specFromOk, hs, hps]

theorem boundLte_qBound (parse : String → Option Int) (hp : parse "" = none)
    (o : Option String) (t : Int) :
    boundLte (qBound parse o) t = specToOk parse o t := by
  match o with
  | none => rfl
  | some s =>
    by_cases hs : s = ""
    · subst hs
      simp [qBound, specToOk, hp, boundLte]
    · simp only [qBound, hs, if_neg, ite_false]
      cases hps : parse s <;> simp [boundLte, specToOk, hs, hps]

theorem specFromOk_of_falsy (parse : String → Option Int)
    (hp : parse "" = none) (o : Option String) (t : Int)
    (h : qTruthy o = false) : specFromOk parse o t = true := by
  match o with
  | none => rfl
  | some s =>
    simp only [qTruthy, ne_eq, decide_not, Bool.not_eq_false',
      decide_eq_true_eq] at h
    subst h
    simp [specFromOk, hp]

theorem specToOk_of_falsy (parse : String → Option Int)
    (hp : parse "" = none) (o : Option String) (t : Int)
    (h : qTruthy o = false) : specToOk parse o t = true := by
  match o with
  | none => rfl
  | some s =>
    simp only [qTruthy, ne_eq, decide_not, Bool.not_eq_false',
      decide_eq_true_eq] at h
    subst h
    simp [specToOk, hp]

/-- The date filter the handler builds (src/index.js lines 136-141)
matches a valid stored date exactly when the claim-side inclusive bound
tests both hold. -/
theorem rangeOk_eq_spec (parse : String → Option Int) (hp : parse "" = none)
    (fromS toS : Option String) (t : Int) :
    rangeOk (if qTruthy fromS || qTruthy toS then
        some ⟨qBound parse fromS, qBound parse toS⟩ else none) (some t)
      = (specFromOk parse fromS t && specToOk parse toS t) := by
  by_cases hcond : (qTruthy fromS || qTruthy toS) = true
  · rw [if_pos hcond]
    show (boundGte (qBound parse fromS) t && boundLte (qBound parse toS) t) = _
    rw [boundGte_qBound parse hp, boundLte_qBound parse hp]
  · rw [if_neg hcond]
    simp only [Bool.or_eq_true, not_or, Bool.not_eq_true] at hcond
    rw [specFromOk_of_falsy parse hp fromS t hcond.1,
      specToOk_of_falsy parse hp toS t hcond.2]
    rfl

/-- C1: the date-range filter of getLogs.  For an existing user and no
`limit`, the returned log is exactly the user's stored exercises whose
date satisfies the claim-side bound tests: `from` present restricts to
date ≥ parse(from), `to` present to date ≤ parse(to), both bounds
combine, the range is inclusive (both tests use ≤), absent bounds impose
no restriction, and an unparseable `from` or `to` yields an always-true
comparison rather than an error (the response is still a 200). -/
theorem getLogs_date_range_filter (parse : String → Option Int)
    (hp : parse "" = none) (st : Store) (uid : Nat) (user : UserR)
    (hfind : st.users.find? (fun u => u.id = uid) = some user)
    (hvalid : ∀ e ∈ st.exercises, e.date.isSome = true)
    (fromS toS : Option String) :
    getLogs parse st uid fromS toS none =
      (.ok ⟨user.username,
            (st.exercises.filter (fun e => e.userId = user.id
                && e.date.any (fun t =>
                  specFromOk parse fromS t && specToOk parse toS t))).length,
            user.id,
            (st.exercises.filter (fun e => e.userId = user.id
                && e.date.any (fun t =>
                  specFromOk parse fromS t && specToOk parse toS t))).map
              (fun e => ⟨e.description, e.duration, toDateStringSafe e.date⟩)⟩,
       st) := by
  have hfilter : st.exercises.filter (fun e => e.userId = user.id
        && rangeOk (if qTruthy fromS || qTruthy toS then
            some ⟨qBound parse fromS, qBound parse toS⟩ else none) e.date)
      = st.exercises.filter (fun e => e.userId = user.id
        && e.date.any (fun t =>
          specFromOk parse fromS t && specToOk parse toS t)) := by
    apply List.filter_congr
    intro e he
    obtain ⟨t, ht⟩ := Option.isSome_iff_exists.mp (hvalid e he)
    rw [ht, rangeOk_eq_spec parse hp]
    rfl
  simp only [getLogs, hfind]
  rw [hfilter]

/-- Witness for C1: user `alice` with exercises dated 1970-01-01,
2023-01-15 and 2023-05-01; `from=2023-01-01&to=2023-01-31` keeps
exactly the 2023-01-15 entry, inclusive bounds included. -/
theorem getLogs_date_range_filter_witness :
    parseYYYYMMDD "" = none ∧
      getLogs parseYYYYMMDD
          ⟨[⟨0, "alice"⟩], [⟨1, 0, "run", some 30, some 0⟩,
            ⟨2, 0, "walk", some 10, some 1673740800000⟩,
            ⟨3, 0, "swim", some 20, some 1682899200000⟩], 4⟩ 0
          (some "2023-01-01") (some "2023-01-31") none =
        (.ok ⟨"alice", 1, 0, [⟨"walk", some 10, "Sun Jan 15 2023"⟩]⟩,
         ⟨[⟨0, "alice"⟩], [⟨1, 0, "run", some 30, some 0⟩,
           ⟨2, 0, "walk", some 10, some 1673740800000⟩,
           ⟨3, 0, "swim", some 20, some 1682899200000⟩], 4⟩) :=
  ⟨by decide,
   (getLogs_date_range_filter parseYYYYMMDD (by decide)
       ⟨[⟨0, "alice"⟩], [⟨1, 0, "run", some 30, some 0⟩,
         ⟨2, 0, "walk", some 10, some 1673740800000⟩,
         ⟨3, 0, "swim", some 20, some 1682899200000⟩], 4⟩ 0 ⟨0, "alice"⟩
       (by decide) (by decide) (some "2023-01-01") (some "2023-01-31")).trans
     (by decide)⟩

/-- Counterexample to C5 as stated: with `limit="0"` (present, and
`Number("0") = 0`) on a user with one exercise, the log contains 1
entry, which is not at most `Number(limit) = 0` — `limit(0)` imposes no
limit instead of truncating to zero entries. -/
theorem getLogs_limit_at_most_cex :
    jsStringToNumber "0" = some 0 ∧
      (getLogs parseYYYYMMDD runStore 0 none none (some "0")).1 =
        .ok ⟨"alice", 1, 0, [⟨"run", some 30, "Thu Jan 01 1970"⟩]⟩ ∧
      ¬((1 : Int) ≤ 0) := by
  decide

theorem mem_mongoLimit {n : Int} {l : List ExerciseR} {x : ExerciseR}
    (h : x ∈ mongoLimit n l) : x ∈ l := by
  unfold mongoLimit at h
  split at h
  · exact h
  · exact List.mem_of_mem_take h

/-- C5 (amended): with `limit` present and `Number(limit)` a positive
number `n`, the returned log has at most `n` entries, those entries are
the first entries (in storage order) of the log the same call would
return without a limit, and the `count` field equals the number of
entries actually returned. -/
theorem getLogs_positive_limit_truncates (parse : String → Option Int)
    (st : Store) (uid : Nat) (fromS toS : Option String) (s : String)
    (n : Int) (hs : ¬s = "") (hn : jsStringToNumber s = some n)
    (hpos : 0 < n) (v : LogView)
    (hok : (getLogs parse st uid fromS toS (some s)).1 = .ok v) :
    (v.log.length : Int) ≤ n ∧ v.count = v.log.length ∧
      ∃ w : LogView, (getLogs parse st uid fromS toS none).1 = .ok w ∧
        v.log = w.log.take n.natAbs := by
  simp only [getLogs] at hok ⊢
  cases hfind : st.users.find? (fun u => u.id = uid) with
  | none => rw [hfind] at hok; exact absurd hok (by simp)
  | some user =>
    rw [hfind] at hok
    simp only [hs, hn, if_neg, ite_false] at hok
    have hne : ¬n = 0 := by omega
    simp only [mongoLimit, hne, ite_false, if_neg] at hok
    have hv : v = ⟨user.username,
        ((st.exercises.filter (fun e => e.userId = user.id
          && rangeOk (if qTruthy fromS || qTruthy toS then
              some ⟨qBound parse fromS, qBound parse toS⟩ else none)
            e.date)).take n.natAbs).length, user.id,
        ((st.exercises.filter (fun e => e.userId = user.id
          && rangeOk (if qTruthy fromS || qTruthy toS then
              some ⟨qBound parse fromS, qBound parse toS⟩ else none)
            e.date)).take n.natAbs).map
          (fun e => ⟨e.description, e.duration, toDateStringSafe e.date⟩)⟩ := by
      exact (ApiResult.ok.injEq _ _ ▸ hok).symm
    subst hv
    refine ⟨?_, ?_, ?_⟩
    · simp only [List.length_map, List.length_take]
      omega
    · simp [List.length_map]
    · refine ⟨⟨user.username,
        (st.exercises.filter (fun e => e.userId = user.id
          && rangeOk (if qTruthy fromS || qTruthy toS then
              some ⟨qBound parse fromS, qBound parse toS⟩ else none)
            e.date)).length, user.id,
        (st.exercises.filter (fun e => e.userId = user.id
          && rangeOk (if qTruthy fromS || qTruthy toS then
              some ⟨qBound parse fromS, qBound parse toS⟩ else none)
            e.date)).map
          (fun e => ⟨e.description, e.duration, toDateStringSafe e.date⟩)⟩,
        ?_, ?_⟩
      · rfl
      · simp [List.map_take]

/-- Witness for C5 (amended): `limit=2` on a user with three exercises
returns the first two entries and `count = 2 ≤ 2`. -/
theorem getLogs_positive_limit_truncates_witness :
    (¬"2" = "") ∧ jsStringToNumber "2" = some 2 ∧ (0 : Int) < 2 ∧
      (getLogs parseYYYYMMDD
          ⟨[⟨0, "alice"⟩], [⟨1, 0, "run", some 30, some 0⟩,
            ⟨2, 0, "walk", some 10, some 1673740800000⟩,
            ⟨3, 0, "swim", some 20, some 1682899200000⟩], 4⟩ 0
          none none (some "2")).1 =
        .ok ⟨"alice", 2, 0, [⟨"run", some 30, "Thu Jan 01 1970"⟩,
          ⟨"walk", some 10, "Sun Jan 15 2023"⟩]⟩ ∧
      (((2 : Nat) : Int) ≤ 2 ∧ (2 : Nat) = 2 ∧
        ∃ w : LogView,
          (getLogs parseYYYYMMDD
              ⟨[⟨0, "alice"⟩], [⟨1, 0, "run", some 30, some 0⟩,
                ⟨2, 0, "walk", some 10, some 1673740800000⟩,
                ⟨3, 0, "swim", some 20, some 1682899200000⟩], 4⟩ 0
              none none none).1 = .ok w ∧
            [(⟨"run", some 30, "Thu Jan 01 1970"⟩ : LogEntry),
              ⟨"walk", some 10, "Sun Jan 15 2023"⟩] = w.log.take (2 : Int).natAbs) :=
  ⟨by decide, by decide, by decide, by decide,
   getLogs_positive_limit_truncates parseYYYYMMDD
     ⟨[⟨0, "alice"⟩], [⟨1, 0, "run", some 30, some 0⟩,
       ⟨2, 0, "walk", some 10, some 1673740800000⟩,
       ⟨3, 0, "swim", some 20, some 1682899200000⟩], 4⟩ 0 none none "2" 2
     (by decide) (by decide) (by decide)
     ⟨"alice", 2, 0, [⟨"run", some 30, "Thu Jan 01 1970"⟩,
       ⟨"walk", some 10, "Sun Jan 15 2023"⟩]⟩ (by decide)⟩

/-- C7: every Exercise returned to a client carries a display-formatted
date.  A successful appendExercise stores one new record whose date is a
valid timestamp and answers with that timestamp rendered by
`toDateString` (weekday/month/day/year), and every entry of a getLogs
response renders the date of some stored exercise through
`toDateStringSafe` — the stored values are timestamps, never the display
strings. -/
theorem responses_use_display_dates :
    (∀ (st : Store) (uid : Nat) (description duration : JSVal)
        (date? : Option String) (now : Int) (v : ExerciseView) (st' : Store),
        appendExercise st uid description duration date? now = (.ok v, st') →
        ∃ ex t, st'.exercises = st.exercises ++ [ex] ∧ ex.date = some t ∧
          v.date = toDateString t ∧ v.date = toDateStringSafe ex.date)
    ∧ (∀ (parse : String → Option Int) (st : Store) (uid : Nat)
        (fromS toS limitS : Option String) (v : LogView) (st' : Store),
        getLogs parse st uid fromS toS limitS = (.ok v, st') →
        ∀ entry ∈ v.log, ∃ ex, ex ∈ st.exercises ∧
          entry.date = toDateStringSafe ex.date ∧
          entry.description = ex.description ∧
          entry.duration = ex.duration) := by
  constructor
  · intro st uid description duration date? now v st' h
    simp only [appendExercise] at h
    split at h
    · exact absurd h (by simp)
    · split at h
      · exact absurd h (by simp)
      · split at h
        · rename_i x1 user hfindeq x2 x3 dur t hdureq hdateeq
          obtain ⟨hv, hst⟩ := Prod.mk.inj h
          refine ⟨⟨st.nextId, user.id, description.toStr, some dur, some t⟩,
            t, ?_, rfl, ?_, ?_⟩
          · rw [← hst]
          · rw [← ApiResult.ok.inj hv]
            rfl
          · rw [← ApiResult.ok.inj hv]
        · exact absurd h (by simp)
  · intro parse st uid fromS toS limitS v st' h entry hentry
    simp only [getLogs] at h
    split at h
    · exact absurd h (by simp)
    · rename_i user hfind
      split at h
      · exact absurd h (by simp)
      · rename_i exs hexs
        obtain ⟨hv, hst⟩ := Prod.mk.inj h
        rw [← ApiResult.ok.inj hv] at hentry
        simp only [List.mem_map] at hentry
        obtain ⟨ex, hex, hentry⟩ := hentry
        have hmem : ex ∈ st.exercises := by
          split at hexs
          · split at hexs
            · simp only [Option.some.injEq] at hexs
              rw [← hexs] at hex
              exact List.mem_of_mem_filter hex
            · split at hexs
              · simp only [Option.some.injEq] at hexs
                rw [← hexs] at hex
                exact List.mem_of_mem_filter (mem_mongoLimit hex)
              · exact absurd hexs (by simp)
          · simp only [Option.some.injEq] at hexs
            rw [← hexs] at hex
            exact List.mem_of_mem_filter hex
        exact ⟨ex, hmem, by rw [← hentry], by rw [← hentry], by rw [← hentry]⟩

/-- Witness for C7: appending `swim` on 2023-05-01 answers with the
display string "Mon May 01 2023" for the stored timestamp, and the log
entry for the epoch-dated `run` renders "Thu Jan 01 1970" from the
stored exercise. -/
theorem responses_use_display_dates_witness :
    (∃ ex t,
        (⟨[⟨0, "alice"⟩], [⟨1, 0, "run", some 30, some 0⟩,
            ⟨2, 0, "swim", some 20, some 1682899200000⟩], 3⟩ : Store).exercises
          = runStore.exercises ++ [ex] ∧ ex.date = some t ∧
        (⟨0, "alice", "swim", some 20, "Mon May 01 2023"⟩ :
            ExerciseView).date = toDateString t ∧
        (⟨0, "alice", "swim", some 20, "Mon May 01 2023"⟩ :
            ExerciseView).date = toDateStringSafe ex.date)
    ∧ ∃ ex, ex ∈ runStore.exercises ∧
        (⟨"run", some 30, "Thu Jan 01 1970"⟩ : LogEntry).date
          = toDateStringSafe ex.date ∧
        (⟨"run", some 30, "Thu Jan 01 1970"⟩ : LogEntry).description
          = ex.description ∧
        (⟨"run", some 30, "Thu Jan 01 1970"⟩ : LogEntry).duration
          = ex.duration :=
  ⟨responses_use_display_dates.1 runStore 0 (JSVal.str "swim")
     (JSVal.num 20) (some "2023-05-01") 7
     ⟨0, "alice", "swim", some 20, "Mon May 01 2023"⟩
     ⟨[⟨0, "alice"⟩], [⟨1, 0, "run", some 30, some 0⟩,
       ⟨2, 0, "swim", some 20, some 1682899200000⟩], 3⟩ (by decide),
   responses_use_display_dates.2 parseYYYYMMDD runStore 0 none none none
     ⟨"alice", 1, 0, [⟨"run", some 30, "Thu Jan 01 1970"⟩]⟩ runStore
     (by decide) ⟨"run", some 30, "Thu Jan 01 1970"⟩ (by decide)⟩

end ExerciseTracker
